import Mathlib

/-!
Shallow embedding of the Elo ranking engine and its dual-track web routes
(`src/app.py`).  Python floats are modelled as real numbers; Python dicts
mapping items to scores are modelled as a total function `String → ℝ`
together with the `items` list recording the table's key set (the code
only ever writes keys that are already present).  Python exceptions are
modelled by returning the partially mutated state together with an
`Option`/`Except` error value, mirroring the exact point in the source at
which the exception is raised.  The module-level randomness
(`random.sample`, `random.randint`, `random.choice`, `random.choices`) is
modelled by an oracle structure `Rnd` supplying raw draws; the bounds and
failure conditions of each library call are translated faithfully.
-/

/-- Error raised by the rating engine when a judgment references an item
that is not a key of the ratings table (Python `KeyError`, the spec's
`UnknownItem`). -/
inductive EngineErr where
  | UnknownItem
deriving DecidableEq

/-- Errors raised during pair generation.  `InsufficientItems` models the
`ValueError`/`IndexError` raised by `random.sample`, `random.randint`,
`random.choice` and `random.choices` when the item set is too small;
`UnknownStrategy` models the `NameError` from the unbound `pair` variable
when `self.strategy` matches no branch. -/
inductive GenErr where
  | InsufficientItems
  | UnknownStrategy
deriving DecidableEq

/-- A comparison-log entry: `(winner, loser)` tuples appended by
`update_ratings`, `(a, b, 'tie')` tuples appended by `record_tie`. -/
inductive Comparison where
  | win (winner loser : String)
  | tie (a b : String)
deriving DecidableEq

/-- Oracle for the `random` module: raw draws that the strategies consume.
`sample2 items` stands for `random.sample(items, 2)` (consulted only when
the population has at least 2 elements); `randidx`, `choiceIdx` and
`weightedIdx` are raw naturals reduced modulo the relevant range, standing
for `random.randint(0, n)`, `random.choice` and the index drawn by
`random.choices(candidates, weights)`. -/
structure Rnd where
  sample2 : List String → List String
  randidx : Nat
  choiceIdx : Nat
  weightedIdx : Nat

/-- State of one `EloRanker` instance (class `EloRanker` in the source).
`ratings` is the score table (total function; its meaningful domain is
`items`), `rating_change_indices` models the Python set of sequence
positions at which a rating change happened, `history` the snapshot stack,
`comparisons` the comparison log, `pair_sequence` the presented pairs, and
`current_index` the cursor (initially `-1`). -/
structure EloRanker where
  k_factor : ℝ
  ratings : String → ℝ
  items : List String
  rating_change_indices : List ℤ
  comparisons : List Comparison
  history : List (String → ℝ)
  pair_sequence : List (List String)
  current_index : ℤ
  strategy : String

/-- `EloRanker.__init__` with the default `k_factor=32` and
`initial_rating=1500` (the web layer always constructs rankers with the
defaults). -/
noncomputable def mkRanker (items : List String) : EloRanker :=
  { k_factor := 32
    ratings := fun _ => 1500
    items := items
    rating_change_indices := []
    comparisons := []
    history := []
    pair_sequence := []
    current_index := -1
    strategy := "random" }

/-- Python `set.add` on the rating-change index set (modelled as a
duplicate-free list). -/
def addMark (l : List ℤ) (i : ℤ) : List ℤ :=
  if i ∈ l then l else i :: l

/-- `EloRanker.expected_score`: `1 / (1 + 10 ** ((rating_b - rating_a) / 400))`. -/
noncomputable def expected_score (rating_a rating_b : ℝ) : ℝ :=
  1 / (1 + (10 : ℝ) ^ ((rating_b - rating_a) / 400))

/-- `EloRanker.update_ratings`.  The snapshot push and the
`rating_change_indices.add` happen before the two dict lookups, so a
`KeyError` (`UnknownItem`) leaves those two mutations in place while the
ratings and the comparison log are untouched; on success both scores are
written and the `(winner, loser)` tuple is appended. -/
noncomputable def update_ratings (r : EloRanker) (winner loser : String) :
    EloRanker × Option EngineErr :=
  let r1 := { r with
    history := r.history ++ [r.ratings]
    rating_change_indices := addMark r.rating_change_indices r.current_index }
  if winner ∈ r.items then
    if loser ∈ r.items then
      let r_winner := r.ratings winner
      let r_loser := r.ratings loser
      let e_winner := expected_score r_winner r_loser
      let e_loser := expected_score r_loser r_winner
      ({ r1 with
          ratings := Function.update
            (Function.update r.ratings winner (r_winner + r.k_factor * (1 - e_winner)))
            loser (r_loser + r.k_factor * (0 - e_loser))
          comparisons := r.comparisons ++ [Comparison.win winner loser] }, none)
    else (r1, some EngineErr.UnknownItem)
  else (r1, some EngineErr.UnknownItem)

/-- `EloRanker.record_tie`: same shape as `update_ratings` but with target
scores `0.5`/`0.5`, no `rating_change_indices.add`, and a `'tie'`-tagged
log entry. -/
noncomputable def record_tie (r : EloRanker) (item_a item_b : String) :
    EloRanker × Option EngineErr :=
  let r1 := { r with history := r.history ++ [r.ratings] }
  if item_a ∈ r.items then
    if item_b ∈ r.items then
      let r_a := r.ratings item_a
      let r_b := r.ratings item_b
      let e_a := expected_score r_a r_b
      let e_b := expected_score r_b r_a
      ({ r1 with
          ratings := Function.update
            (Function.update r.ratings item_a (r_a + r.k_factor * (0.5 - e_a)))
            item_b (r_b + r.k_factor * (0.5 - e_b))
          comparisons := r.comparisons ++ [Comparison.tie item_a item_b] }, none)
    else (r1, some EngineErr.UnknownItem)
  else (r1, some EngineErr.UnknownItem)

/-- List indexing `seq[i]` for the (always non-negative) cursor values at
which the source indexes `pair_sequence`. -/
def pairAt (seq : List (List String)) (i : ℤ) : List String :=
  seq.getD i.toNat []

/-- `EloRanker.go_back`.  When `current_index > 0`: if the current position
is marked rating-affecting, restore the most recent snapshot (if any), pop
the last comparison (if any) and clear the mark — `List.getLastD`/`dropLast`
reproduce the guarded `if self.history: ... pop()` behaviour — then
decrement the cursor and return the entry now under it.  Otherwise return
`none` (Python `None`) and leave the state untouched. -/
def go_back (r : EloRanker) : EloRanker × Option (List String) :=
  if 0 < r.current_index then
    let r1 :=
      if r.current_index ∈ r.rating_change_indices then
        { r with
            ratings := r.history.getLastD r.ratings
            history := r.history.dropLast
            comparisons := r.comparisons.dropLast
            rating_change_indices := r.rating_change_indices.erase r.current_index }
      else r
    let r2 := { r1 with current_index := r1.current_index - 1 }
    (r2, some (pairAt r2.pair_sequence r2.current_index))
  else (r, none)

/-- Stable insertion into a list sorted ascending by score (model of the
ordering produced by Python `sorted(items, key=...)`). -/
noncomputable def insertRated (f : String → ℝ) (x : String) : List String → List String
  | [] => [x]
  | y :: t => if f x ≤ f y then x :: y :: t else y :: insertRated f x t

/-- `sorted(self.items, key=lambda x: self.ratings[x])`. -/
noncomputable def sortRated (f : String → ℝ) : List String → List String
  | [] => []
  | x :: t => insertRated f x (sortRated f t)

/-- The strategy branch of `EloRanker.get_next_pair` that produces a fresh
pair.  `random`: `random.sample(items, 2)` fails iff the population has
fewer than 2 elements.  `close`: sort by rating, then
`random.randint(0, len - 2)` fails iff `len < 2`; the drawn index is the
raw draw reduced into `[0, len - 2]`.  `weighted`: `random.choice` fails
on an empty list; `random.choices(candidates, weights)` fails when the
candidate list (all items different from `item_a`) is empty; the weights
are computed as in the source and the drawn index is the raw draw reduced
into range.  Any other strategy string leaves `pair` unbound
(`UnknownStrategy`). -/
noncomputable def gen_pair (r : EloRanker) (rnd : Rnd) : Except GenErr (List String) :=
  if r.strategy = "random" then
    if r.items.length < 2 then Except.error GenErr.InsufficientItems
    else Except.ok (rnd.sample2 r.items)
  else if r.strategy = "close" then
    let sorted_items := sortRated r.ratings r.items
    if sorted_items.length < 2 then Except.error GenErr.InsufficientItems
    else
      let idx := rnd.randidx % (sorted_items.length - 1)
      Except.ok [sorted_items.getD idx "", sorted_items.getD (idx + 1) ""]
  else if r.strategy = "weighted" then
    if r.items.length = 0 then Except.error GenErr.InsufficientItems
    else
      let item_a := r.items.getD (rnd.choiceIdx % r.items.length) ""
      let rating_a := r.ratings item_a
      let candidates := r.items.filter (fun i => i != item_a)
      let _weights := candidates.map (fun i => 1 / (1 + |r.ratings i - rating_a| / 100))
      if candidates.length = 0 then Except.error GenErr.InsufficientItems
      else Except.ok [item_a, candidates.getD (rnd.weightedIdx % candidates.length) ""]
  else Except.error GenErr.UnknownStrategy

/-- `EloRanker.get_next_pair`.  If the cursor is strictly behind the
frontier, step it forward and return the existing entry (redo path, no
generation).  Otherwise generate via the strategy (an exception leaves the
state untouched), truncate the sequence to `current_index + 1` entries,
append the fresh pair, and move the cursor to the new last index.  The
Python slice `[:current_index + 1]` is modelled by `take (… ).toNat`,
which agrees with it on the cursor range `-1 ≤ current_index` that every
reachable state maintains (see `reachable_inv`). -/
noncomputable def get_next_pair (r : EloRanker) (rnd : Rnd) :
    EloRanker × Except GenErr (List String) :=
  if r.current_index + 1 < (r.pair_sequence.length : ℤ) then
    let r1 := { r with current_index := r.current_index + 1 }
    (r1, Except.ok (pairAt r1.pair_sequence r1.current_index))
  else
    match gen_pair r rnd with
    | Except.error e => (r, Except.error e)
    | Except.ok pair =>
      let newSeq := r.pair_sequence.take (r.current_index + 1).toNat ++ [pair]
      ({ r with
          pair_sequence := newSeq
          current_index := (newSeq.length : ℤ) - 1 }, Except.ok pair)

/-- Total of all scores in a ranker's table (over its item set). -/
noncomputable def sumT (r : EloRanker) : ℝ :=
  (r.items.map r.ratings).sum

/-- The state a request sees for one (ranking set, user): the user's
personal ranker, the set's shared (global) ranker, and the user's session
`sandbox` flag. -/
structure SysState where
  personal : EloRanker
  global : EloRanker
  sandbox : Bool

/-- The `/submit_comparison` route.  `'tie'` (the skip/tie key) returns
immediately without touching either track.  Otherwise the replay flag is
resolved from the personal cursor before any mutation; the personal track
is updated for `'left'`/`'right'` (a `KeyError` aborts the request with
the partial personal mutation retained and the global track untouched);
then the global track is updated only when the session is not sandboxed
and the position was not a replay.  The returned `Bool` is the `success`
response (`false` models an uncaught exception). -/
noncomputable def submit_comparison (s : SysState) (result left right : String) :
    SysState × Bool :=
  if result = "tie" then (s, true)
  else
    let is_replaying :=
      s.personal.current_index < (s.personal.pair_sequence.length : ℤ) - 1
    let pe :=
      if result = "left" then update_ratings s.personal left right
      else if result = "right" then update_ratings s.personal right left
      else (s.personal, none)
    match pe with
    | (p1, some _) => ({ s with personal := p1 }, false)
    | (p1, none) =>
      if s.sandbox = false ∧ ¬ is_replaying then
        let ge :=
          if result = "left" then update_ratings s.global left right
          else if result = "right" then update_ratings s.global right left
          else (s.global, none)
        ({ s with personal := p1, global := ge.1 }, ge.2.isNone)
      else ({ s with personal := p1 }, true)

/-- The `/go_back` route.  The rating-affecting mark of the current
personal position is read before `go_back` runs (which clears it); the
global track is reversed—latest snapshot restored, last comparison
popped—exactly when the personal `go_back` succeeded, the session is not
sandboxed at undo time, the saved mark was set, and the global snapshot
stack is non-empty. -/
def go_back_route (s : SysState) : SysState × Option (List String) :=
  let had_rating_change :=
    s.personal.current_index ∈ s.personal.rating_change_indices
  match go_back s.personal with
  | (p1, none) => ({ s with personal := p1 }, none)
  | (p1, some pair) =>
    if s.sandbox = false ∧ had_rating_change ∧ 0 < s.global.history.length then
      ({ s with
          personal := p1
          global := { s.global with
            ratings := s.global.history.getLastD s.global.ratings
            history := s.global.history.dropLast
            comparisons := s.global.comparisons.dropLast } }, some pair)
    else ({ s with personal := p1 }, some pair)

/-- One user-visible operation against a (ranking set, user) state:
submitting a judgment, requesting the next pair (`/get_pair`), or going
back (`/go_back`). -/
inductive Act where
  | submit (result left right : String)
  | getPair (rnd : Rnd)
  | goBack

/-- Apply one operation to the state. -/
noncomputable def stepAct (s : SysState) (a : Act) : SysState :=
  match a with
  | Act.submit result left right => (submit_comparison s result left right).1
  | Act.getPair rnd => { s with personal := (get_next_pair s.personal rnd).1 }
  | Act.goBack => (go_back_route s).1

/-- Run a sequence of operations. -/
noncomputable def runActs (s : SysState) (acts : List Act) : SysState :=
  acts.foldl stepAct s

/-- States of one `EloRanker` reachable from construction through the
operations the web layer performs on it: pair generation, win/loss and tie
judgments, going back, changing the strategy, and overwriting scores from
a persisted CSV (modelled as an arbitrary replacement of the score
function, a superset of what `load_from_csv` can produce). -/
inductive Reachable : EloRanker → Prop where
  | init (items : List String) : Reachable (mkRanker items)
  | next (r : EloRanker) (rnd : Rnd) :
      Reachable r → Reachable (get_next_pair r rnd).1
  | rate (r : EloRanker) (w l : String) :
      Reachable r → Reachable (update_ratings r w l).1
  | tieStep (r : EloRanker) (a b : String) :
      Reachable r → Reachable (record_tie r a b).1
  | back (r : EloRanker) :
      Reachable r → Reachable (go_back r).1
  | strat (r : EloRanker) (st : String) :
      Reachable r → Reachable { r with strategy := st }
  | load (r : EloRanker) (f : String → ℝ) :
      Reachable r → Reachable { r with ratings := f }

/-- The two sides' expected scores always add to `1`: with
`t = 10 ^ ((rb - ra) / 400) > 0` the sides are `1 / (1 + t)` and
`1 / (1 + t⁻¹) = t / (1 + t)`. -/
theorem expected_score_add (ra rb : ℝ) :
    expected_score ra rb + expected_score rb ra = 1 := by
  unfold expected_score
  have hx : (ra - rb) / 400 = -((rb - ra) / 400) := by ring
  rw [hx, Real.rpow_neg (by norm_num : (0 : ℝ) ≤ 10)]
  have htpos : 0 < (10 : ℝ) ^ ((rb - ra) / 400) :=
    Real.rpow_pos_of_pos (by norm_num) _
  have h1 : (1 : ℝ) + (10 : ℝ) ^ ((rb - ra) / 400) ≠ 0 := by positivity
  have h2 : (10 : ℝ) ^ ((rb - ra) / 400) ≠ 0 := ne_of_gt htpos
  field_simp
  ring

/-- Expected scores are strictly positive. -/
theorem expected_score_pos (ra rb : ℝ) : 0 < expected_score ra rb := by
  unfold expected_score
  have htpos : 0 < (10 : ℝ) ^ ((rb - ra) / 400) :=
    Real.rpow_pos_of_pos (by norm_num) _
  positivity

/-- Summing a score function over a duplicate-free item list after a
single-point update replaces the old value by the new one. -/
theorem sum_map_update (l : List String) (f : String → ℝ) (a : String) (v : ℝ)
    (hnd : l.Nodup) (ha : a ∈ l) :
    (l.map (Function.update f a v)).sum = (l.map f).sum - f a + v := by
  induction l with
  | nil => cases ha
  | cons b t ih =>
    rcases List.nodup_cons.mp hnd with ⟨hbt, hndt⟩
    rcases List.mem_cons.mp ha with hab | hat
    · subst hab
      have hmap : t.map (Function.update f a v) = t.map f := by
        apply List.map_congr_left
        intro x hx
        exact Function.update_noteq (fun (h : x = a) => hbt (h ▸ hx)) v f
      simp [hmap, Function.update_same]
      ring
    · have hba : b ≠ a := fun h => hbt (h ▸ hat)
      simp [Function.update_noteq hba, ih hndt hat]
      ring

/-- Shape of a successful `update_ratings` call (both items present). -/
theorem update_ratings_ok (r : EloRanker) (w l : String)
    (hw : w ∈ r.items) (hl : l ∈ r.items) :
    update_ratings r w l =
      ({ r with
          ratings := Function.update
            (Function.update r.ratings w
              (r.ratings w + r.k_factor * (1 - expected_score (r.ratings w) (r.ratings l))))
            l (r.ratings l + r.k_factor * (0 - expected_score (r.ratings l) (r.ratings w)))
          comparisons := r.comparisons ++ [Comparison.win w l]
          history := r.history ++ [r.ratings]
          rating_change_indices := addMark r.rating_change_indices r.current_index },
        none) := by
  simp [update_ratings, hw, hl]

/-- Shape of a successful `record_tie` call (both items present). -/
theorem record_tie_ok (r : EloRanker) (a b : String)
    (ha : a ∈ r.items) (hb : b ∈ r.items) :
    record_tie r a b =
      ({ r with
          ratings := Function.update
            (Function.update r.ratings a
              (r.ratings a + r.k_factor * (0.5 - expected_score (r.ratings a) (r.ratings b))))
            b (r.ratings b + r.k_factor * (0.5 - expected_score (r.ratings b) (r.ratings a)))
          comparisons := r.comparisons ++ [Comparison.tie a b]
          history := r.history ++ [r.ratings] },
        none) := by
  simp [record_tie, ha, hb]

/-- C3: For every rating-mutating judgment (win/loss via `update_ratings`
or tie via `record_tie`) between two distinct items present in a
duplicate-free table, the total of all ratings in the table is unchanged:
the two items' score changes cancel exactly. -/
theorem c3_rating_judgments_zero_sum (r : EloRanker) (w l : String)
    (hnd : r.items.Nodup) (hw : w ∈ r.items) (hl : l ∈ r.items) (hne : w ≠ l) :
    sumT (update_ratings r w l).1 = sumT r ∧ sumT (record_tie r w l).1 = sumT r := by
  have hes := expected_score_add (r.ratings w) (r.ratings l)
  constructor
  · rw [update_ratings_ok r w l hw hl]
    unfold sumT
    simp only
    rw [sum_map_update r.items _ l _ hnd hl,
        sum_map_update r.items r.ratings w _ hnd hw,
        Function.update_noteq (Ne.symm hne)]
    linear_combination (-r.k_factor) * hes
  · rw [record_tie_ok r w l hw hl]
    unfold sumT
    simp only
    rw [sum_map_update r.items _ l _ hnd hl,
        sum_map_update r.items r.ratings w _ hnd hw,
        Function.update_noteq (Ne.symm hne)]
    linear_combination (-r.k_factor) * hes

/-- Witness for C3 at a concrete two-item table. -/
theorem c3_witness :
    sumT (update_ratings (mkRanker ["x", "y"]) "x" "y").1 = sumT (mkRanker ["x", "y"]) ∧
    sumT (record_tie (mkRanker ["x", "y"]) "x" "y").1 = sumT (mkRanker ["x", "y"]) :=
  c3_rating_judgments_zero_sum (mkRanker ["x", "y"]) "x" "y"
    (by simp [mkRanker]) (by simp [mkRanker]) (by simp [mkRanker]) (by simp)

/-- C5: A win between two distinct items present in the table succeeds and
applies the Elo update: the winner's score becomes
`r_w + k * (1 - e_w)` and the loser's `r_l + k * (0 - e_l)`, with
`e_x = 1 / (1 + 10 ^ ((r_other - r_x) / 400))`. -/
theorem c5_update_ratings_applies_elo_formula (r : EloRanker) (w l : String)
    (hw : w ∈ r.items) (hl : l ∈ r.items) (hne : w ≠ l) :
    (update_ratings r w l).2 = none ∧
    (update_ratings r w l).1.ratings w
      = r.ratings w + r.k_factor *
          (1 - 1 / (1 + (10 : ℝ) ^ ((r.ratings l - r.ratings w) / 400))) ∧
    (update_ratings r w l).1.ratings l
      = r.ratings l + r.k_factor *
          (0 - 1 / (1 + (10 : ℝ) ^ ((r.ratings w - r.ratings l) / 400))) := by
  rw [update_ratings_ok r w l hw hl]
  refine ⟨rfl, ?_, ?_⟩
  · simp [Function.update_noteq hne, Function.update_same, expected_score]
  · simp [Function.update_same, expected_score]

/-- Witness for C5, the spec's end-to-end example: two items rated 1500
with `k = 32`; after one win the winner is at exactly 1516 and the loser
at exactly 1484. -/
theorem c5_witness :
    (update_ratings (mkRanker ["x", "y"]) "x" "y").1.ratings "x" = 1516 ∧
    (update_ratings (mkRanker ["x", "y"]) "x" "y").1.ratings "y" = 1484 := by
  have h := c5_update_ratings_applies_elo_formula (mkRanker ["x", "y"]) "x" "y"
    (by simp [mkRanker]) (by simp [mkRanker]) (by simp)
  have hz : (((mkRanker ["x", "y"]).ratings "y" - (mkRanker ["x", "y"]).ratings "x") / 400 : ℝ) = 0 := by
    simp [mkRanker]
  have hz' : (((mkRanker ["x", "y"]).ratings "x" - (mkRanker ["x", "y"]).ratings "y") / 400 : ℝ) = 0 := by
    simp [mkRanker]
  refine ⟨?_, ?_⟩
  · rw [h.2.1, hz, Real.rpow_zero]
    simp [mkRanker]
    norm_num
  · rw [h.2.2, hz', Real.rpow_zero]
    simp [mkRanker]
    norm_num

/-- An index just added to the rating-change set is a member of it. -/
theorem mem_addMark_self (l : List ℤ) (i : ℤ) : i ∈ addMark l i := by
  unfold addMark
  split
  · assumption
  · exact List.mem_cons_self i l

/-- The last element (with default) of a list with an element appended. -/
theorem getLastD_concat_eq {α : Type} (l : List α) (x d : α) :
    (l ++ [x]).getLastD d = x := by
  induction l with
  | nil => rfl
  | cons a t ih =>
    cases t with
    | nil => rfl
    | cons b u => simpa using ih

/-- C10: `go_back` from a state with `current_index > 0` leaves the pair
sequence element-for-element identical and moves the cursor back by
exactly one. -/
theorem c10_go_back_preserves_sequence (r : EloRanker) (h : 0 < r.current_index) :
    (go_back r).1.pair_sequence = r.pair_sequence ∧
    (go_back r).1.current_index = r.current_index - 1 := by
  unfold go_back
  rw [if_pos h]
  by_cases hm : r.current_index ∈ r.rating_change_indices <;> simp [hm]

/-- Witness state for C10: two presented pairs, cursor on the second. -/
noncomputable def c10r : EloRanker :=
  { mkRanker ["a", "b"] with
      pair_sequence := [["a", "b"], ["b", "a"]]
      current_index := 1 }

/-- Witness for C10 at a concrete state. -/
theorem c10_witness :
    (go_back c10r).1.pair_sequence = c10r.pair_sequence ∧
    (go_back c10r).1.current_index = c10r.current_index - 1 :=
  c10_go_back_preserves_sequence c10r (by norm_num [c10r])

/-- Successful `get_next_pair` from a consistent cursor position
(`-1 ≤ current_index`, strictly before the sequence end when incremented)
moves the cursor forward by exactly one and changes nothing but the pair
sequence. -/
theorem get_next_pair_shape (r : EloRanker) (rnd : Rnd) (p : List String)
    (hc0 : 0 ≤ r.current_index)
    (hclen : r.current_index < (r.pair_sequence.length : ℤ))
    (hok : (get_next_pair r rnd).2 = Except.ok p) :
    ∃ S, (get_next_pair r rnd).1
      = { r with pair_sequence := S, current_index := r.current_index + 1 } := by
  unfold get_next_pair at hok ⊢
  by_cases h : r.current_index + 1 < (r.pair_sequence.length : ℤ)
  · rw [if_pos h]
    exact ⟨r.pair_sequence, rfl⟩
  · rw [if_neg h] at hok ⊢
    cases hgen : gen_pair r rnd with
    | error e => rw [hgen] at hok; cases hok
    | ok q =>
      dsimp only at hok ⊢
      refine ⟨r.pair_sequence.take (r.current_index + 1).toNat ++ [q], ?_⟩
      have hlen : r.pair_sequence.length = (r.current_index + 1).toNat := by omega
      have hcur :
          (((r.pair_sequence.take (r.current_index + 1).toNat ++ [q]).length : ℤ) - 1)
            = r.current_index + 1 := by
        rw [List.length_append, List.length_take]
        simp [hlen]
        omega
      rw [hcur]

/-- C4 (amended): a submit seen by the user is an `advance` (the pair is
presented) followed by a rating-mutating judgment on it.  When the pair is
presented from a position with at least one earlier entry
(`0 ≤ current_index` before the advance, cursor within the sequence),
`go_back` right after the judgment restores the score table exactly and
returns the cursor to its pre-presentation position.  (For the very first
presented pair the claim fails; see the counterexample.) -/
theorem c4_submit_then_go_back_round_trip (r : EloRanker) (rnd : Rnd)
    (w l : String) (p : List String)
    (hc0 : 0 ≤ r.current_index)
    (hclen : r.current_index < (r.pair_sequence.length : ℤ))
    (hw : w ∈ r.items) (hl : l ∈ r.items)
    (hok : (get_next_pair r rnd).2 = Except.ok p) :
    ((go_back ((update_ratings (get_next_pair r rnd).1 w l).1)).1).ratings = r.ratings ∧
    ((go_back ((update_ratings (get_next_pair r rnd).1 w l).1)).1).current_index
      = r.current_index := by
  obtain ⟨S, hS⟩ := get_next_pair_shape r rnd p hc0 hclen hok
  rw [hS, update_ratings_ok
    { r with pair_sequence := S, current_index := r.current_index + 1 } w l hw hl]
  have h1 : (0 : ℤ) < r.current_index + 1 := by omega
  simp [go_back, h1, mem_addMark_self, getLastD_concat_eq]

/-- Fixed randomness oracle used for the concrete scenarios: `sample2`
returns the first two items, all raw draws are zero. -/
def rnd0 : Rnd :=
  { sample2 := fun xs => xs.take 2
    randidx := 0
    choiceIdx := 0
    weightedIdx := 0 }

/-- Witness for C4 at a concrete state: cursor on the second presented
pair, so the round trip applies. -/
theorem c4_witness :
    ((go_back ((update_ratings (get_next_pair c10r rnd0).1 "a" "b").1)).1).ratings
      = c10r.ratings ∧
    ((go_back ((update_ratings (get_next_pair c10r rnd0).1 "a" "b").1)).1).current_index
      = c10r.current_index :=
  c4_submit_then_go_back_round_trip c10r rnd0 "a" "b" ["a", "b"]
    (by norm_num [c10r]) (by norm_num [c10r])
    (by simp [c10r, mkRanker]) (by simp [c10r, mkRanker]) rfl

/-- A fresh two-item ranker. -/
noncomputable def c4r0 : EloRanker := mkRanker ["a", "b"]

/-- The fresh ranker after its first pair is presented (cursor `0`). -/
noncomputable def c4r1 : EloRanker := (get_next_pair c4r0 rnd0).1

/-- After judging that first pair. -/
noncomputable def c4r2 : EloRanker := (update_ratings c4r1 "a" "b").1

/-- Counterexample to C4 as stated: for the very first rating-mutating
submit (judging the first presented pair, cursor `0`), `go_back` is a
no-op and does not restore the table — the winner's score stays mutated. -/
theorem c4_counterexample :
    go_back c4r2 = (c4r2, none) ∧ c4r2.ratings "a" ≠ c4r0.ratings "a" := by
  constructor
  · rfl
  · have hm1 : "a" ∈ c4r1.items := by simp [c4r1, c4r0, get_next_pair, gen_pair, mkRanker, rnd0]
    have hm2 : "b" ∈ c4r1.items := by simp [c4r1, c4r0, get_next_pair, gen_pair, mkRanker, rnd0]
    have h2 : c4r2 = (update_ratings c4r1 "a" "b").1 := rfl
    rw [h2, update_ratings_ok c4r1 "a" "b" hm1 hm2]
    have hra : c4r1.ratings = fun _ => (1500 : ℝ) := rfl
    have hk : c4r1.k_factor = 32 := rfl
    have hr0 : c4r0.ratings "a" = 1500 := rfl
    simp only [hr0]
    have hne : ("a" : String) ≠ "b" := by simp
    simp [Function.update_noteq hne, Function.update_same, expected_score, hra, hk]
    norm_num

/-- C6: `get_next_pair` case analysis.  Strictly behind the frontier the
cursor steps forward one position and the existing entry is returned with
the sequence untouched (no generation).  At the frontier, once the
strategy yields a fresh pair, the sequence becomes its first
`current_index + 1` entries (everything after the cursor discarded) with
the fresh pair appended, the cursor moves to the new last index, and the
fresh pair is returned. -/
theorem c6_get_next_pair_cases (r : EloRanker) (rnd : Rnd) :
    (r.current_index + 1 < (r.pair_sequence.length : ℤ) →
      (get_next_pair r rnd).1.pair_sequence = r.pair_sequence ∧
      (get_next_pair r rnd).1.current_index = r.current_index + 1 ∧
      (get_next_pair r rnd).2
        = Except.ok (pairAt r.pair_sequence (r.current_index + 1))) ∧
    (¬ r.current_index + 1 < (r.pair_sequence.length : ℤ) →
      ∀ p, gen_pair r rnd = Except.ok p →
        (get_next_pair r rnd).1.pair_sequence
          = r.pair_sequence.take (r.current_index + 1).toNat ++ [p] ∧
        (get_next_pair r rnd).1.current_index
          = (((get_next_pair r rnd).1.pair_sequence.length : ℤ)) - 1 ∧
        (get_next_pair r rnd).2 = Except.ok p) := by
  constructor
  · intro h
    unfold get_next_pair
    rw [if_pos h]
    exact ⟨rfl, rfl, rfl⟩
  · intro h p hp
    unfold get_next_pair
    rw [if_neg h, hp]
    exact ⟨rfl, rfl, rfl⟩

/-- Witness state for C6's redo path: cursor strictly behind the frontier. -/
noncomputable def c6r : EloRanker :=
  { mkRanker ["a", "b"] with
      pair_sequence := [["a", "b"], ["b", "a"]]
      current_index := 0 }

/-- Witness for C6: the redo path at `c6r` and the generation path at
`c10r`. -/
theorem c6_witness :
    ((get_next_pair c6r rnd0).1.pair_sequence = c6r.pair_sequence ∧
     (get_next_pair c6r rnd0).1.current_index = c6r.current_index + 1 ∧
     (get_next_pair c6r rnd0).2
       = Except.ok (pairAt c6r.pair_sequence (c6r.current_index + 1))) ∧
    ((get_next_pair c10r rnd0).1.pair_sequence
       = c10r.pair_sequence.take (c10r.current_index + 1).toNat ++ [["a", "b"]] ∧
     (get_next_pair c10r rnd0).1.current_index
       = (((get_next_pair c10r rnd0).1.pair_sequence.length : ℤ)) - 1 ∧
     (get_next_pair c10r rnd0).2 = Except.ok ["a", "b"]) :=
  ⟨(c6_get_next_pair_cases c6r rnd0).1 (by norm_num [c6r]),
   (c6_get_next_pair_cases c10r rnd0).2 (by norm_num [c10r]) ["a", "b"] rfl⟩

/-- C2 (amended): the submit route treats a `'tie'` result as a skip — it
returns success immediately and neither track's state changes at all. -/
theorem c2_submit_tie_is_skip (s : SysState) (left right : String) :
    submit_comparison s "tie" left right = (s, true) := by
  unfold submit_comparison
  rw [if_pos rfl]

/-- Personal ranker with unequal scores, so that a tie update would move
both scores if it were applied. -/
noncomputable def c2p : EloRanker :=
  { mkRanker ["a", "b"] with ratings := fun x => if x = "a" then 1600 else 1400 }

/-- System state for the C2 counterexample. -/
noncomputable def c2s : SysState :=
  { personal := c2p, global := mkRanker ["a", "b"], sandbox := false }

/-- Counterexample to C2 as stated: submitting a tie at a table with
scores 1600/1400 leaves the state entirely unchanged, although the tie
update (`record_tie`, never invoked by the route) would move the scores. -/
theorem c2_counterexample :
    submit_comparison c2s "tie" "a" "b" = (c2s, true) ∧
    (record_tie c2s.personal "a" "b").1.ratings "a" ≠ c2s.personal.ratings "a" := by
  constructor
  · rfl
  · have hm1 : "a" ∈ c2s.personal.items := by simp [c2s, c2p, mkRanker]
    have hm2 : "b" ∈ c2s.personal.items := by simp [c2s, c2p, mkRanker]
    have hne : ("a" : String) ≠ "b" := by simp
    rw [record_tie_ok c2s.personal "a" "b" hm1 hm2]
    have hra : c2s.personal.ratings "a" = 1600 := by simp [c2s, c2p]
    have hrb : c2s.personal.ratings "b" = 1400 := by simp [c2s, c2p]
    have hk : c2s.personal.k_factor = 32 := rfl
    simp only [Function.update_noteq hne, Function.update_same, expected_score,
      hra, hrb, hk]
    have hx : (((1400 : ℝ) - 1600) / 400 : ℝ) = -(1 / 2) := by norm_num
    rw [hx]
    have hlt : (10 : ℝ) ^ (-(1 / 2) : ℝ) < 1 :=
      Real.rpow_lt_one_of_one_lt_of_neg (by norm_num) (by norm_num)
    have hpos : (0 : ℝ) < (10 : ℝ) ^ (-(1 / 2) : ℝ) :=
      Real.rpow_pos_of_pos (by norm_num) _
    intro hcontra
    have hden : (1 : ℝ) + (10 : ℝ) ^ (-(1 / 2) : ℝ) ≠ 0 := by positivity
    have h12 : 1 / (1 + (10 : ℝ) ^ (-(1 / 2) : ℝ)) = 1 / 2 := by
      nlinarith [hcontra]
    rw [div_eq_div_iff hden (by norm_num)] at h12
    nlinarith

/-- C1 (amended): the shared-track reversal decision at undo time is made
from the state current at undo time, not from the apply-time propagation
decision: the shared track is reversed (latest snapshot restored, last
comparison popped) exactly when the personal cursor is positive, the
session's sandbox flag is off at undo time, the personal position carries
the rating-affecting mark, and the shared snapshot stack is non-empty.
Apply-time replay status and apply-time sandbox are not consulted. -/
theorem c1_go_back_reversal_uses_undo_time_state (s : SysState) :
    ((go_back_route s).1).global =
      if 0 < s.personal.current_index ∧ s.sandbox = false
          ∧ s.personal.current_index ∈ s.personal.rating_change_indices
          ∧ 0 < s.global.history.length then
        { s.global with
            ratings := s.global.history.getLastD s.global.ratings
            history := s.global.history.dropLast
            comparisons := s.global.comparisons.dropLast }
      else s.global := by
  unfold go_back_route go_back
  by_cases hc : 0 < s.personal.current_index
  · rw [if_pos hc]
    dsimp only
    by_cases hm : s.personal.current_index ∈ s.personal.rating_change_indices <;>
      by_cases hsb : s.sandbox = false <;>
        by_cases hh : 0 < s.global.history.length <;>
          simp [hc, hm, hsb, hh]
  · rw [if_neg hc]
    dsimp only
    simp [hc]

/-- Fresh two-user-track state for the C1 counterexample: sandbox off. -/
noncomputable def c1s0 : SysState :=
  { personal := mkRanker ["a", "b"], global := mkRanker ["a", "b"], sandbox := false }

/-- First pair presented. -/
noncomputable def c1s1 : SysState :=
  { c1s0 with personal := (get_next_pair c1s0.personal rnd0).1 }

/-- First judgment submitted (propagates to the shared track). -/
noncomputable def c1s2 : SysState := (submit_comparison c1s1 "left" "a" "b").1

/-- Second pair presented. -/
noncomputable def c1s3 : SysState :=
  { c1s2 with personal := (get_next_pair c1s2.personal rnd0).1 }

/-- Second judgment submitted (also propagates: sandbox off, no replay). -/
noncomputable def c1s4 : SysState := (submit_comparison c1s3 "left" "a" "b").1

/-- The user then switches sandbox on before undoing. -/
noncomputable def c1s5 : SysState := { c1s4 with sandbox := true }

/-- Counterexample to C1 as stated: the second judgment did cause a
shared-track update (the shared snapshot stack grew from 1 to 2), yet
after toggling sandbox on, `go_back` leaves the shared track completely
untouched — the reversal decision follows the current sandbox setting,
not the propagation decision made at apply time. -/
theorem c1_counterexample :
    c1s2.global.history.length = 1 ∧
    c1s4.global.history.length = 2 ∧
    ((go_back_route c1s5).1).global = c1s5.global := by
  refine ⟨rfl, rfl, rfl⟩

/-- When the session is sandboxed, no single operation touches the shared
track, and the sandbox flag itself is preserved. -/
theorem stepAct_sandboxed (s : SysState) (a : Act) (h : s.sandbox = true) :
    (stepAct s a).global = s.global ∧ (stepAct s a).sandbox = true := by
  cases a with
  | submit result left right =>
    unfold stepAct submit_comparison
    dsimp only
    by_cases ht : result = "tie"
    · rw [if_pos ht]
      exact ⟨rfl, h⟩
    · rw [if_neg ht]
      split
      · exact ⟨rfl, h⟩
      · split
        · rename_i hcond
          rw [h] at hcond
          exact absurd hcond.1 (by simp)
        · exact ⟨rfl, h⟩
  | getPair rnd => exact ⟨rfl, h⟩
  | goBack =>
    unfold stepAct go_back_route
    dsimp only
    split
    · exact ⟨rfl, h⟩
    · split
      · rename_i hcond
        rw [h] at hcond
        exact absurd hcond.1 (by simp)
      · exact ⟨rfl, h⟩

/-- C7: with sandbox enabled, no sequence of the user's operations
(judgment submissions, pair requests, go-backs — in particular any
sequence of judgments, replayed or not) ever changes the shared track. -/
theorem c7_sandbox_never_touches_shared (s : SysState) (acts : List Act)
    (h : s.sandbox = true) :
    (runActs s acts).global = s.global := by
  induction acts generalizing s with
  | nil => rfl
  | cons a t ih =>
    have hstep := stepAct_sandboxed s a h
    have hrun : runActs s (a :: t) = runActs (stepAct s a) t := rfl
    rw [hrun, ih (stepAct s a) hstep.2, hstep.1]

/-- Sandboxed system state for the C7 witness. -/
noncomputable def c7s : SysState :=
  { personal := mkRanker ["a", "b"], global := mkRanker ["a", "b"], sandbox := true }

/-- Witness for C7: five operations, including rating-mutating judgments,
leave the shared track untouched under sandbox. -/
theorem c7_witness :
    (runActs c7s
      [Act.getPair rnd0, Act.submit "left" "a" "b",
       Act.getPair rnd0, Act.submit "right" "a" "b", Act.goBack]).global
      = c7s.global :=
  c7_sandbox_never_touches_shared c7s
    [Act.getPair rnd0, Act.submit "left" "a" "b",
     Act.getPair rnd0, Act.submit "right" "a" "b", Act.goBack] rfl

/-- C8 (amended): a judgment referencing an item not in the table fails
with `UnknownItem` and leaves the ratings and the comparison log exactly
as they were — but the check is not performed before all mutation: the
snapshot history has already been pushed and the current position has
already been marked rating-affecting when the failure occurs. -/
theorem c8_unknown_item_partial_mutation (r : EloRanker) (w l : String)
    (h : w ∉ r.items ∨ l ∉ r.items) :
    update_ratings r w l =
      ({ r with
          history := r.history ++ [r.ratings]
          rating_change_indices := addMark r.rating_change_indices r.current_index },
        some EngineErr.UnknownItem) := by
  unfold update_ratings
  dsimp only
  rcases h with h | h
  · rw [if_neg h]
  · by_cases hw : w ∈ r.items
    · rw [if_pos hw, if_neg h]
    · rw [if_neg hw]

/-- Witness for C8 (amended) at a concrete table missing item `"c"`. -/
theorem c8_witness :
    update_ratings (mkRanker ["a", "b"]) "a" "c" =
      ({ mkRanker ["a", "b"] with
          history := (mkRanker ["a", "b"]).history ++ [(mkRanker ["a", "b"]).ratings]
          rating_change_indices :=
            addMark (mkRanker ["a", "b"]).rating_change_indices
              (mkRanker ["a", "b"]).current_index },
        some EngineErr.UnknownItem) :=
  c8_unknown_item_partial_mutation (mkRanker ["a", "b"]) "a" "c"
    (Or.inr (by simp [mkRanker]))

/-- Counterexample to C8 as stated: the failing call returns
`UnknownItem`, yet the engine state is not left exactly as it was — the
snapshot history grew by one entry. -/
theorem c8_counterexample :
    (update_ratings (mkRanker ["a", "b"]) "a" "c").2 = some EngineErr.UnknownItem ∧
    (update_ratings (mkRanker ["a", "b"]) "a" "c").1.history.length
      ≠ (mkRanker ["a", "b"]).history.length := by
  refine ⟨rfl, ?_⟩
  simp [update_ratings, mkRanker]

/-- Insertion grows the sorted list by one element. -/
theorem length_insertRated (f : String → ℝ) (x : String) (l : List String) :
    (insertRated f x l).length = l.length + 1 := by
  induction l with
  | nil => rfl
  | cons y t ih =>
    unfold insertRated
    split
    · simp
    · simp [ih]

/-- Sorting preserves length. -/
theorem length_sortRated (f : String → ℝ) (l : List String) :
    (sortRated f l).length = l.length := by
  induction l with
  | nil => rfl
  | cons x t ih => simp [sortRated, length_insertRated, ih]

/-- With fewer than two items, every configured strategy's generation step
fails with `InsufficientItems`. -/
theorem gen_pair_insufficient (r : EloRanker) (rnd : Rnd)
    (hlen : r.items.length < 2)
    (hs : r.strategy = "random" ∨ r.strategy = "close" ∨ r.strategy = "weighted") :
    gen_pair r rnd = Except.error GenErr.InsufficientItems := by
  unfold gen_pair
  rcases hs with hs | hs | hs
  · rw [if_pos hs, if_pos hlen]
  · rw [if_neg (by rw [hs]; simp), if_pos hs]
    dsimp only
    rw [if_pos (by rw [length_sortRated]; exact hlen)]
  · rw [if_neg (by rw [hs]; simp), if_neg (by rw [hs]; simp), if_pos hs]
    dsimp only
    match hitems : r.items with
    | [] => simp
    | [x] => simp [List.filter, Nat.mod_one]
    | x :: y :: t =>
      rw [hitems] at hlen
      simp at hlen
      omega

/-- With fewer than two items, generation fails for every strategy string
(an unrecognized strategy fails with `UnknownStrategy`). -/
theorem gen_pair_small_errors (r : EloRanker) (rnd : Rnd)
    (hlen : r.items.length < 2) :
    ∃ e, gen_pair r rnd = Except.error e := by
  by_cases h1 : r.strategy = "random"
  · exact ⟨GenErr.InsufficientItems, gen_pair_insufficient r rnd hlen (Or.inl h1)⟩
  by_cases h2 : r.strategy = "close"
  · exact ⟨GenErr.InsufficientItems, gen_pair_insufficient r rnd hlen (Or.inr (Or.inl h2))⟩
  by_cases h3 : r.strategy = "weighted"
  · exact ⟨GenErr.InsufficientItems,
      gen_pair_insufficient r rnd hlen (Or.inr (Or.inr h3))⟩
  refine ⟨GenErr.UnknownStrategy, ?_⟩
  unfold gen_pair
  rw [if_neg h1, if_neg h2, if_neg h3]

/-- Invariant of all reachable ranker states: the cursor never goes below
`-1`, and with fewer than two items no pair has ever entered the sequence
(generation always fails, and entries only appear through generation). -/
theorem reachable_inv (r : EloRanker) (h : Reachable r) :
    -1 ≤ r.current_index ∧ (r.items.length < 2 → r.pair_sequence = []) := by
  induction h with
  | init items => exact ⟨by norm_num [mkRanker], fun _ => rfl⟩
  | next r rnd hr ih =>
    obtain ⟨h1, h2⟩ := ih
    unfold get_next_pair
    by_cases hb : r.current_index + 1 < (r.pair_sequence.length : ℤ)
    · rw [if_pos hb]
      exact ⟨by dsimp only; omega, fun hlen => h2 hlen⟩
    · rw [if_neg hb]
      cases hgen : gen_pair r rnd with
      | error e => exact ⟨h1, h2⟩
      | ok p =>
        dsimp only
        constructor
        · have hpos :
              0 < (r.pair_sequence.take (r.current_index + 1).toNat ++ [p]).length := by
            simp
          omega
        · intro hlen
          obtain ⟨e, he⟩ := gen_pair_small_errors r rnd hlen
          rw [hgen] at he
          cases he
  | rate r w l hr ih =>
    obtain ⟨h1, h2⟩ := ih
    unfold update_ratings
    dsimp only
    by_cases hw : w ∈ r.items
    · rw [if_pos hw]
      by_cases hl : l ∈ r.items
      · rw [if_pos hl]
        exact ⟨h1, h2⟩
      · rw [if_neg hl]
        exact ⟨h1, h2⟩
    · rw [if_neg hw]
      exact ⟨h1, h2⟩
  | tieStep r a b hr ih =>
    obtain ⟨h1, h2⟩ := ih
    unfold record_tie
    dsimp only
    by_cases ha : a ∈ r.items
    · rw [if_pos ha]
      by_cases hb : b ∈ r.items
      · rw [if_pos hb]
        exact ⟨h1, h2⟩
      · rw [if_neg hb]
        exact ⟨h1, h2⟩
    · rw [if_neg ha]
      exact ⟨h1, h2⟩
  | back r hr ih =>
    obtain ⟨h1, h2⟩ := ih
    unfold go_back
    by_cases hc : 0 < r.current_index
    · rw [if_pos hc]
      by_cases hm : r.current_index ∈ r.rating_change_indices
      · rw [if_pos hm]
        exact ⟨by dsimp only; omega, fun hlen => h2 hlen⟩
      · rw [if_neg hm]
        exact ⟨by dsimp only; omega, fun hlen => h2 hlen⟩
    · rw [if_neg hc]
      exact ⟨h1, h2⟩
  | strat r st hr ih => exact ih
  | load r f hr ih => exact ih

/-- C9: in every reachable state with fewer than two items and any of the
three configured strategies, `get_next_pair` fails with
`InsufficientItems`, produces no pair, and leaves the ranker unchanged. -/
theorem c9_insufficient_items (r : EloRanker) (rnd : Rnd) (h : Reachable r)
    (hlen : r.items.length < 2)
    (hs : r.strategy = "random" ∨ r.strategy = "close" ∨ r.strategy = "weighted") :
    get_next_pair r rnd = (r, Except.error GenErr.InsufficientItems) := by
  obtain ⟨h1, h2⟩ := reachable_inv r h
  have hseq := h2 hlen
  unfold get_next_pair
  have hb : ¬ r.current_index + 1 < (r.pair_sequence.length : ℤ) := by
    rw [hseq]
    simp
    omega
  rw [if_neg hb, gen_pair_insufficient r rnd hlen hs]

/-- Witness for C9: a freshly loaded single-item set under the `random`
strategy. -/
theorem c9_witness :
    get_next_pair (mkRanker ["a"]) rnd0
      = (mkRanker ["a"], Except.error GenErr.InsufficientItems) :=
  c9_insufficient_items (mkRanker ["a"]) rnd0 (Reachable.init ["a"])
    (by simp [mkRanker]) (Or.inl rfl)
